import Mathlib

set_option maxRecDepth 40000

/-!
Verification of the oracle MCP service (src/service.rs) against its
natural-language specification.

Modelling conventions:
* Rust `&str`/`String` values that are only inspected character-wise
  (extraction, test mode, the retry loop) are modelled as `List Char`.
* Byte-sensitive code (prompt building and JSON previews, where Rust
  `len()`, `truncate` and byte slicing operate on UTF-8 bytes) is
  modelled as `List Nat` of byte values.
* `serde_json::Value` is modelled by the inductive `Json`; `Value::get`,
  `as_str`, `as_array` are `jGet`, `jAsStr`, `jAsArr`.
* Rust `str::trim` is modelled by `trimList` using `Char.isWhitespace`
  (the ASCII whitespace fragment; the payloads in the claims are ASCII).
* Operations that panic in Rust (`String::truncate` and byte slicing at
  a non-character boundary) return `Option`, with `none` for the panic.
-/

/-- Characters of a Rust string, for byte-insensitive code. -/
abbrev Str := List Char

/-- Byte values of a Rust string, for byte-sensitive code. -/
abbrev Bytes := List Nat

/-- Bytes of an ASCII string literal (for ASCII text, UTF-8 bytes are
the character codes). -/
def ascii (s : String) : Bytes := s.data.map Char.toNat

/-- Model of Rust `str::trim`: drop leading and trailing whitespace. -/
def trimList (l : Str) : Str :=
  ((l.dropWhile Char.isWhitespace).reverse.dropWhile Char.isWhitespace).reverse

/-- Model of `serde_json::Value`. -/
inductive Json where
  | null : Json
  | bool : Bool → Json
  | num : Int → Json
  | str : Str → Json
  | arr : List Json → Json
  | obj : List (String × Json) → Json

/-- Key lookup in an object's field list (first match wins). -/
def lookupField : List (String × Json) → String → Option Json
  | [], _ => none
  | (k', v) :: rest, k => if k' = k then some v else lookupField rest k

/-- Model of `Value::get(key)`: field lookup on objects, `none` otherwise. -/
def jGet : Json → String → Option Json
  | .obj fields, k => lookupField fields k
  | _, _ => none

/-- Model of `Value::as_str`. -/
def jAsStr : Json → Option Str
  | .str s => some s
  | _ => none

/-- Model of `Value::as_array`. -/
def jAsArr : Json → Option (List Json)
  | .arr xs => some xs
  | _ => none

/-- Model of `value.get(key).and_then(as_str)`. -/
def jGetStr (j : Json) (k : String) : Option Str := (jGet j k).bind jAsStr

/-- Model of `value.get(key).and_then(as_array)`. -/
def jGetArr (j : Json) (k : String) : Option (List Json) := (jGet j k).bind jAsArr

lemma sizeOf_lookupField {fields : List (String × Json)} {k : String} {v : Json}
    (h : lookupField fields k = some v) : sizeOf v < sizeOf fields := by
  induction fields with
  | nil => simp [lookupField] at h
  | cons hd tl ih =>
    obtain ⟨k', v'⟩ := hd
    by_cases hk : k' = k
    · simp [lookupField, hk] at h
      subst h
      simp
      omega
    · simp [lookupField, hk] at h
      have := ih h
      simp
      omega

lemma sizeOf_jGetArr {e : Json} {k : String} {xs : List Json}
    (h : jGetArr e k = some xs) : sizeOf xs < sizeOf e := by
  unfold jGetArr jGet at h
  cases e with
  | obj fields =>
    rw [Option.bind_eq_some] at h
    obtain ⟨v, hv, hvs⟩ := h
    cases v with
    | arr ys =>
      simp [jAsArr] at hvs
      subst hvs
      have := sizeOf_lookupField hv
      simp at this ⊢
      omega
    | null => simp [jAsArr] at hvs
    | bool b => simp [jAsArr] at hvs
    | num n => simp [jAsArr] at hvs
    | str s => simp [jAsArr] at hvs
    | obj o => simp [jAsArr] at hvs
  | null => simp at h
  | bool b => simp at h
  | num n => simp at h
  | str s => simp at h
  | arr ys => simp at h

/-- Model of `append_text_segment` (service.rs:477): skip blank pieces,
join non-blank ones with a blank line. -/
def append_text_segment (buffer text : Str) : Str :=
  if trimList text = [] then buffer
  else if buffer = [] then text
  else buffer ++ ("\n\n").data ++ text

/-- Model of `collect_text_from_contents` (service.rs:466): for each
entry, append its `text` field if it is a string, then recurse into its
`content` field if it is an array. -/
def collectTextFromContents (contents : List Json) (buffer : Str) : Str :=
  match contents with
  | [] => buffer
  | entry :: rest =>
    let b1 :=
      match jGetStr entry ("text") with
      | some t => append_text_segment buffer t
      | none => buffer
    let b2 :=
      match h : jGetArr entry ("content") with
      | some nested => collectTextFromContents nested b1
      | none => b1
    collectTextFromContents rest b2
termination_by sizeOf contents
decreasing_by
  · have := sizeOf_jGetArr h
    simp
    omega
  · simp

/-- Stage 1 of `extract_output_text` (service.rs:426): a top-level
`output_text` string field, trimmed, if non-blank. -/
def extractStage1 (response : Json) : Option Str :=
  match jGetStr response ("output_text") with
  | some text => if trimList text ≠ [] then some (trimList text) else none
  | none => none

/-- Stage 2 of `extract_output_text` (service.rs:433): a top-level
`output_text` array of string chunks, joined by `append_text_segment`. -/
def extractStage2 (response : Json) : Option Str :=
  match jGetArr response ("output_text") with
  | some chunks =>
    let buffer := (chunks.filterMap jAsStr).foldl append_text_segment []
    if buffer ≠ [] then some buffer else none
  | none => none

/-- Stage 3 of `extract_output_text` (service.rs:443): a top-level
`output` array of items whose `content` arrays are collected recursively. -/
def extractStage3 (response : Json) : Option Str :=
  match jGetArr response ("output") with
  | some output_items =>
    let buffer := output_items.foldl
      (fun buf item =>
        match jGetArr item ("content") with
        | some content => collectTextFromContents content buf
        | none => buf) []
    if buffer ≠ [] then some buffer else none
  | none => none

/-- Stage 4 of `extract_output_text` (service.rs:455): a top-level
`content` array, collected recursively. -/
def extractStage4 (response : Json) : Option Str :=
  match jGetArr response ("content") with
  | some content =>
    let buffer := collectTextFromContents content []
    if buffer ≠ [] then some buffer else none
  | none => none

/-- Model of `extract_output_text` (service.rs:425): the four strategies
tried in order, first hit wins (each `return` in the Rust function). -/
def extract_output_text (response : Json) : Option Str :=
  match extractStage1 response with
  | some t => some t
  | none =>
    match extractStage2 response with
    | some t => some t
    | none =>
      match extractStage3 response with
      | some t => some t
      | none => extractStage4 response

/-- Model of `response_status` (service.rs:390). -/
def response_status (value : Json) : Option Str := jGetStr value ("status")

/-- Model of `incomplete_reason` (service.rs:417). -/
def incomplete_reason (value : Json) : Option Str :=
  ((jGet value ("incomplete_details")).bind (fun v => jGet v ("reason"))).bind jAsStr

/-- Model of `should_poll_status` (service.rs:394). -/
def should_poll_status (status : Str) : Bool :=
  decide (status = ("queued").data) || decide (status = ("in_progress").data) ||
    decide (status = ("cancelling").data)

/-- Model of `next_poll_delay` (service.rs:398), in milliseconds. -/
def next_poll_delay (current : Nat) : Nat :=
  let millis := if current = 0 then 500 else current + current / 2
  min millis 5000

/-- Status field with the `unwrap_or("unknown")` default used by the
service (service.rs:171 and service.rs:239). -/
def statusD (value : Json) : Str := (response_status value).getD (("unknown").data)

/-- Outcome of the polling loop, by the `return` sites of
`wait_for_openai_completion` (service.rs:216). Error messages carry the
payload they summarize. `fetchError` stands for a transport or parse
failure on a poll fetch, modelled as exhaustion of the fetch list. -/
inductive PollOutcome where
  | ok (p : Json)
  | failedErr (p : Json)
  | requiresAction (p : Json)
  | cancelled (p : Json)
  | pollTimeout (p : Json)
  | unexpectedStatus (s : Str) (p : Json)
  | fetchError
  | missingId

/-- Model of the polling loop body of `wait_for_openai_completion`
(service.rs:238): `fetches` is the sequence of payloads successive poll
fetches return; `delay` and `elapsed` are in milliseconds. The deadline
is `OPENAI_POLL_TIMEOUT_SECS = 120` seconds, i.e. 120000 ms. -/
def pollLoop (response_json : Json) (fetches : List Json) (delay elapsed : Nat) :
    PollOutcome :=
  if statusD response_json = ("completed").data
      ∨ statusD response_json = ("incomplete").data then .ok response_json
  else if statusD response_json = ("failed").data then .failedErr response_json
  else if statusD response_json = ("requires_action").data then
    .requiresAction response_json
  else if statusD response_json = ("cancelled").data then .cancelled response_json
  else if should_poll_status (statusD response_json) then
    if 120000 ≤ elapsed then .pollTimeout response_json
    else
      match fetches with
      | [] => .fetchError
      | next :: rest => pollLoop next rest (next_poll_delay delay) (elapsed + delay)
  else .unexpectedStatus (statusD response_json) response_json
termination_by fetches

/-- Model of `wait_for_openai_completion` (service.rs:216): checks the
`id` field, then runs the polling loop starting at a 500 ms delay and
zero elapsed time. -/
def wait_for_openai_completion (initial : Json) (fetches : List Json) : PollOutcome :=
  match jGetStr initial ("id") with
  | none => .missingId
  | some _ => pollLoop initial fetches 500 0

/-- Model of the tool request `OracleRequest` (service.rs:21), over
character lists. -/
structure OracleRequest where
  problem : Str
  files : Option (List Str)
  extra_context : Option Str

/-- Model of `test_mode_response` (service.rs:60). -/
def test_mode_response (request : OracleRequest) : Str :=
  ("[oracle test mode] No call was made to OpenAI because ORACLE_TEST_MODE is set.\n\n").data
  ++ ("Problem description:\n").data ++ request.problem ++ ("\n\n").data
  ++ (match request.extra_context with
      | some extra =>
        if trimList extra ≠ [] then
          ("Extra context:\n").data ++ extra ++ ("\n\n").data
        else ("Extra context: (not provided)\n\n").data
      | none => ("Extra context: (not provided)\n\n").data)
  ++ ("Files provided:\n").data
  ++ (match request.files with
      | some files =>
        if files ≠ [] then
          files.foldl (fun acc path => acc ++ ("- ").data ++ path ++ ("\n").data) []
        else ("(none)\n").data
      | none => ("(none)\n").data)

/-- Warning appended when a terminal `incomplete` payload still carried
text (service.rs:178). -/
def warningText (reason : Option Str) : Str :=
  ("\n\n[oracle warning] OpenAI stopped early (").data
  ++ reason.getD (("reason unavailable").data)
  ++ ("). The answer may be truncated.").data

/-- Outcome of `call_openai` (service.rs:95), by its `return` sites.
`outOfResponses` stands for a run whose submission/poll pipeline fails
before yielding a terminal payload, modelled as exhaustion of the
response list. -/
inductive CallResult where
  | answer (t : Str)
  | configError
  | incompleteNoText (p : Json)
  | noTextExtracted (p : Json)
  | outOfResponses

/-- Retry loop of `call_openai` (service.rs:127): `responses` is the
sequence of terminal payloads successive submissions produce (each the
result of `wait_for_openai_completion`); `budget` is
`max_output_tokens`; `attemptsPrev` counts iterations already finished,
so the code's `attempts` counter is `attemptsPrev + 1`. -/
def callLoop : List Json → Nat → Nat → CallResult
  | [], _, _ => .outOfResponses
  | resp :: rest, budget, attemptsPrev =>
    match extract_output_text resp with
    | some answer =>
      if statusD resp = ("incomplete").data then
        .answer (answer ++ warningText (incomplete_reason resp))
      else .answer answer
    | none =>
      if statusD resp = ("incomplete").data
          ∧ incomplete_reason resp = some (("max_output_tokens").data)
          ∧ budget < 8192 ∧ attemptsPrev + 1 < 3 then
        callLoop rest (min (budget * 2) 8192) (attemptsPrev + 1)
      else if statusD resp = ("incomplete").data then .incompleteNoText resp
      else .noTextExtracted resp

/-- Condition under which the retry loop resubmits (service.rs:185),
with `attemptsPrev + 1` the code's `attempts` counter. -/
def retryCond (resp : Json) (budget attemptsPrev : Nat) : Prop :=
  extract_output_text resp = none
  ∧ statusD resp = ("incomplete").data
  ∧ incomplete_reason resp = some (("max_output_tokens").data)
  ∧ budget < 8192 ∧ attemptsPrev + 1 < 3

instance (resp : Json) (b a : Nat) : Decidable (retryCond resp b a) := by
  unfold retryCond
  infer_instance

/-- Budgets of the successive submissions the retry loop makes on a
given run (one entry per completed submit/poll exchange). -/
def budgetTrace : List Json → Nat → Nat → List Nat
  | [], _, _ => []
  | resp :: rest, budget, attemptsPrev =>
    budget ::
      (if retryCond resp budget attemptsPrev then
        budgetTrace rest (min (budget * 2) 8192) (attemptsPrev + 1)
      else [])

/-- Top of `call_openai` (service.rs:95): the `ORACLE_TEST_MODE` check
short-circuits everything; otherwise a missing `OPENAI_API_KEY` fails;
otherwise the retry loop runs from budget 2048 and attempt count 0. -/
def call_openai (testMode : Bool) (apiKey : Option Str) (request : OracleRequest)
    (responses : List Json) : CallResult :=
  if testMode then .answer (test_mode_response request)
  else
    match apiKey with
    | none => .configError
    | some _ => callLoop responses 2048 0

/-- Fixed instruction lines at the top of the prompt (service.rs:350). -/
def promptIntro : Bytes :=
  ascii ("You are Oracle, a senior software engineer MCP tool.\n")
  ++ ascii ("You will be given a coding problem and optional project files.\n")
  ++ ascii ("Carefully analyze the problem, read the files, reason step-by-step, and produce a clear, actionable answer.\n\n")
  ++ ascii ("Context is constrained to stay under roughly 256k tokens. If you see \x27[truncated]\x27 markers, some content was cut to fit the budget.\n\n")

/-- Model of `MAX_PROMPT_CHARS` (service.rs:15). -/
def MAX_PROMPT_CHARS : Nat := 1000000

/-- Header of the project-files section (service.rs:366). -/
def projectFilesHeader : Bytes := ascii ("### Project files\n")

/-- Truncation notice appended when file context was cut (service.rs:367). -/
def truncNotice : Bytes :=
  ascii ("\n\n...[truncated project file content to respect ~256k-token context budget]...\n")

/-- Result of reading one requested file: its contents, or the error
text. Supplied by the external file-reading collaborator. -/
inductive FileRead where
  | ok (contents : Bytes)
  | err (message : Bytes)

/-- One file-context entry: the request's path and the read result. -/
structure FileBlock where
  path : Bytes
  read : FileRead

/-- Formatting of one file block (service.rs:335). -/
def formatFileBlock (fb : FileBlock) : Bytes :=
  match fb.read with
  | .ok contents =>
    ascii ("\n\n===== FILE: ") ++ fb.path ++ ascii (" =====\n") ++ contents ++ ascii ("\n")
  | .err message =>
    ascii ("\n\n===== FILE: ") ++ fb.path ++ ascii (" (error reading) =====\n") ++ message
      ++ ascii ("\n")

/-- The concatenated file-context buffer (service.rs:328). -/
def contextBlocksOf : Option (List FileBlock) → Bytes
  | some fs => (fs.map formatFileBlock).flatten
  | none => []

/-- The prompt before the project-files section (service.rs:349). -/
def userPromptBase (problem : Bytes) (extra_context : Option Bytes) : Bytes :=
  promptIntro ++ ascii ("### Coding problem\n") ++ problem ++ ascii ("\n\n")
  ++ (match extra_context with
      | some extra => ascii ("### Extra context\n") ++ extra ++ ascii ("\n\n")
      | none => [])

/-- The code's `base_len` (service.rs:370). -/
def baseLen (problem : Bytes) (extra_context : Option Bytes) : Nat :=
  (userPromptBase problem extra_context).length + projectFilesHeader.length
    + truncNotice.length

/-- Model of `str::is_char_boundary` on UTF-8 bytes: offset 0, the end
of the string, or a byte that is not a UTF-8 continuation byte. -/
def isUtf8CharBoundary (l : Bytes) (n : Nat) : Bool :=
  if n = 0 then true
  else
    match l.get? n with
    | some b => decide (b < 128 ∨ 192 ≤ b)
    | none => decide (n = l.length)

/-- Model of Rust `String::truncate`: a no-op beyond the end, a cut at a
character boundary, and a panic (`none`) at a non-boundary offset. -/
def rustTruncate (l : Bytes) (n : Nat) : Option Bytes :=
  if l.length ≤ n then some l
  else if isUtf8CharBoundary l n then some (l.take n) else none

/-- Model of `build_prompt` (service.rs:326) at byte level, with the
file contents already read (`FileBlock` supplies the content-or-error
text of each path). `none` models the panic of `String::truncate` when
`available_for_files` falls inside a multi-byte character. The `Nat`
subtraction in `available_for_files` is Rust's `saturating_sub`. -/
def build_prompt (problem : Bytes) (extra_context : Option Bytes)
    (files : Option (List FileBlock)) : Option Bytes :=
  if contextBlocksOf files = [] then some (userPromptBase problem extra_context)
  else
    let available_for_files := MAX_PROMPT_CHARS - baseLen problem extra_context
    if available_for_files = 0 then
      some (userPromptBase problem extra_context ++ projectFilesHeader ++ truncNotice)
    else if available_for_files < (contextBlocksOf files).length then
      match rustTruncate (contextBlocksOf files) available_for_files with
      | some truncated =>
        some (userPromptBase problem extra_context ++ projectFilesHeader ++ truncated
          ++ truncNotice)
      | none => none
    else some (userPromptBase problem extra_context ++ projectFilesHeader
      ++ contextBlocksOf files)

/-- Model of `OPENAI_JSON_PREVIEW_CHARS` (service.rs:19). -/
def OPENAI_JSON_PREVIEW_CHARS : Nat := 2000

/-- Model of `summarize_json` (service.rs:487) applied to the serialized
form of the payload (`value.to_string()`, serialization by serde_json
being external). The byte slice `&json_str[..2000]` panics (`none`)
when offset 2000 falls inside a multi-byte character. -/
def summarize_json (json_str : Bytes) : Option Bytes :=
  if json_str.length ≤ OPENAI_JSON_PREVIEW_CHARS then some json_str
  else if isUtf8CharBoundary json_str OPENAI_JSON_PREVIEW_CHARS then
    some (json_str.take OPENAI_JSON_PREVIEW_CHARS
      ++ ascii ("...[truncated ")
      ++ ascii (Nat.repr (json_str.length - OPENAI_JSON_PREVIEW_CHARS))
      ++ ascii (" chars]"))
  else none

lemma dropWhile_head_not {α : Type} {p : α → Bool} {l : List α} {a : α} {t : List α}
    (h : l.dropWhile p = a :: t) : p a = false := by
  induction l with
  | nil => simp at h
  | cons x xs ih =>
    rw [List.dropWhile_cons] at h
    by_cases hx : p x
    · simp [hx] at h
      exact ih h
    · simp [hx] at h
      obtain ⟨rfl, -⟩ := h
      simpa using hx

lemma mem_of_mem_trimList {c : Char} {l : Str} (h : c ∈ trimList l) : c ∈ l := by
  unfold trimList at h
  rw [List.mem_reverse] at h
  have h1 : c ∈ (l.dropWhile Char.isWhitespace).reverse := (List.dropWhile_sublist _).mem h
  rw [List.mem_reverse] at h1
  exact (List.dropWhile_sublist _).mem h1

lemma trimList_eq_nil_iff {l : Str} :
    trimList l = [] ↔ ∀ c ∈ l, Char.isWhitespace c := by
  unfold trimList
  rw [List.reverse_eq_nil_iff, List.dropWhile_eq_nil_iff]
  constructor
  · intro h c hc
    have hsplit : c ∈ l.takeWhile Char.isWhitespace ++ l.dropWhile Char.isWhitespace := by
      rw [List.takeWhile_append_dropWhile]
      exact hc
    rcases List.mem_append.mp hsplit with h1 | h1
    · exact List.mem_takeWhile_imp h1
    · exact h c (List.mem_reverse.mpr h1)
  · intro h c hc
    exact h c ((List.dropWhile_sublist _).mem (List.mem_reverse.mp hc))

lemma exists_nonblank_of_trim_ne_nil {l : Str} (h : trimList l ≠ []) :
    ∃ c ∈ trimList l, Char.isWhitespace c = false := by
  unfold trimList at h ⊢
  rcases hd : (l.dropWhile Char.isWhitespace).reverse.dropWhile Char.isWhitespace with
    _ | ⟨a, t⟩
  · rw [hd] at h
    simp at h
  · exact ⟨a, by simp, dropWhile_head_not hd⟩

lemma trim_ne_nil_of_exists {l : Str} (h : ∃ c ∈ l, Char.isWhitespace c = false) :
    trimList l ≠ [] := by
  intro hnil
  obtain ⟨c, hc, hws⟩ := h
  have := trimList_eq_nil_iff.mp hnil c hc
  rw [hws] at this
  exact Bool.false_ne_true this

/-- Invariant maintained by every buffer the extractor builds: the
buffer is empty or non-blank. -/
def nonBlankOk (buf : Str) : Prop := buf = [] ∨ trimList buf ≠ []

lemma append_text_segment_nonBlankOk {buf t : Str} (h : nonBlankOk buf) :
    nonBlankOk (append_text_segment buf t) := by
  unfold append_text_segment
  by_cases ht : trimList t = []
  · simp [ht]
    exact h
  · obtain ⟨c, hc, hws⟩ := exists_nonblank_of_trim_ne_nil ht
    have hct : c ∈ t := mem_of_mem_trimList hc
    by_cases hb : buf = []
    · simp [ht, hb]
      right
      exact trim_ne_nil_of_exists ⟨c, hct, hws⟩
    · simp [ht, hb]
      right
      exact trim_ne_nil_of_exists ⟨c, by simp [hct], hws⟩

lemma foldl_append_text_segment_nonBlankOk {buf : Str} (l : List Str)
    (h : nonBlankOk buf) : nonBlankOk (l.foldl append_text_segment buf) := by
  induction l generalizing buf with
  | nil => exact h
  | cons x xs ih => exact ih (append_text_segment_nonBlankOk h)

lemma Json.one_le_sizeOf (j : Json) : 1 ≤ sizeOf j := by
  cases j <;> simp

lemma collect_nonBlankOk_aux (n : Nat) : ∀ (contents : List Json) (buf : Str),
    sizeOf contents ≤ n → nonBlankOk buf →
    nonBlankOk (collectTextFromContents contents buf) := by
  induction n with
  | zero =>
    intro contents buf hsz h
    cases contents with
    | nil => simpa [collectTextFromContents] using h
    | cons entry rest => simp at hsz
  | succ n ih =>
    intro contents buf hsz h
    cases contents with
    | nil => simpa [collectTextFromContents] using h
    | cons entry rest =>
      simp at hsz
      have hentry := Json.one_le_sizeOf entry
      have hb1 : nonBlankOk (match jGetStr entry ("text") with
          | some t => append_text_segment buf t
          | none => buf) := by
        cases hs : jGetStr entry ("text") with
        | none => exact h
        | some t => exact append_text_segment_nonBlankOk h
      simp only [collectTextFromContents]
      split
      · rename_i nested hj
        have hnest := sizeOf_jGetArr hj
        exact ih rest _ (by omega) (ih nested _ (by omega) hb1)
      · exact ih rest _ (by omega) hb1

lemma collectTextFromContents_nonBlankOk (contents : List Json) (buf : Str)
    (h : nonBlankOk buf) : nonBlankOk (collectTextFromContents contents buf) :=
  collect_nonBlankOk_aux (sizeOf contents) contents buf le_rfl h

lemma extractStage1_nonblank {response : Json} {t : Str}
    (h : extractStage1 response = some t) : t ≠ [] ∧ trimList t ≠ [] := by
  unfold extractStage1 at h
  split at h
  · rename_i text heq
    split at h
    · rename_i htrim
      obtain rfl : trimList text = t := by simpa using h
      obtain ⟨c, hc, hws⟩ := exists_nonblank_of_trim_ne_nil htrim
      exact ⟨htrim, trim_ne_nil_of_exists ⟨c, hc, hws⟩⟩
    · simp at h
  · simp at h

lemma buffer_guard_nonblank {buffer t : Str} (hnb : nonBlankOk buffer)
    (h : (if buffer ≠ [] then some buffer else none) = some t) :
    t ≠ [] ∧ trimList t ≠ [] := by
  split at h
  · rename_i hne
    obtain rfl : buffer = t := by simpa using h
    rcases hnb with hnil | htrim
    · exact absurd hnil hne
    · exact ⟨hne, htrim⟩
  · simp at h

lemma extractStage2_nonblank {response : Json} {t : Str}
    (h : extractStage2 response = some t) : t ≠ [] ∧ trimList t ≠ [] := by
  unfold extractStage2 at h
  split at h
  · exact buffer_guard_nonblank
      (foldl_append_text_segment_nonBlankOk _ (Or.inl rfl)) h
  · simp at h

lemma foldl_collectStep_nonBlankOk (items : List Json) (buf : Str) (h : nonBlankOk buf) :
    nonBlankOk (items.foldl
      (fun buf item =>
        match jGetArr item ("content") with
        | some content => collectTextFromContents content buf
        | none => buf) buf) := by
  induction items generalizing buf with
  | nil => exact h
  | cons x xs ih =>
    apply ih
    cases hj : jGetArr x ("content") with
    | none => simpa [hj] using h
    | some content => simpa [hj] using collectTextFromContents_nonBlankOk content buf h

lemma extractStage3_nonblank {response : Json} {t : Str}
    (h : extractStage3 response = some t) : t ≠ [] ∧ trimList t ≠ [] := by
  unfold extractStage3 at h
  split at h
  · exact buffer_guard_nonblank (foldl_collectStep_nonBlankOk _ _ (Or.inl rfl)) h
  · simp at h

lemma extractStage4_nonblank {response : Json} {t : Str}
    (h : extractStage4 response = some t) : t ≠ [] ∧ trimList t ≠ [] := by
  unfold extractStage4 at h
  split at h
  · exact buffer_guard_nonblank (collectTextFromContents_nonBlankOk _ _ (Or.inl rfl)) h
  · simp at h

/-- Claim C10: whenever `extract_output_text` returns `some t`, the
string `t` is non-empty and not blank (its trim is non-empty): every
appended piece is checked to be non-blank, and an empty buffer is
reported as `none` rather than `some []`. -/
theorem extract_output_text_nonblank (response : Json) (t : Str)
    (h : extract_output_text response = some t) : t ≠ [] ∧ trimList t ≠ [] := by
  unfold extract_output_text at h
  split at h
  · rename_i t1 heq
    cases h
    exact extractStage1_nonblank heq
  · split at h
    · rename_i heq
      cases h
      exact extractStage2_nonblank heq
    · split at h
      · rename_i heq
        cases h
        exact extractStage3_nonblank heq
      · exact extractStage4_nonblank h

/-- Concrete payload used to instantiate Claim C10: top-level
`output_text` field "done". -/
def payloadDone : Json := Json.obj
  [("status", Json.str (("completed").data)), ("output_text", Json.str (("done").data))]

/-- Witness for Claim C10 at `payloadDone`. -/
theorem extract_output_text_nonblank_witness :
    ("done").data ≠ [] ∧ trimList (("done").data) ≠ [] :=
  extract_output_text_nonblank payloadDone (("done").data) (by rfl)

/-- Claim C4: extraction strategies are tried in fixed priority order and
the first non-empty result wins: a payload with a non-blank top-level
`output_text` string field yields that field's trimmed text, even when a
nested `output` item list holds different text. -/
theorem extract_output_text_priority (response : Json) (text : Str)
    (items : List Json) (nestedText : Str)
    (h1 : jGetStr response ("output_text") = some text)
    (h2 : trimList text ≠ [])
    (h3 : jGetArr response ("output") = some items)
    (h4 : nestedText ≠ trimList text) :
    extract_output_text response = some (trimList text)
      ∧ extract_output_text response ≠ some nestedText := by
  have hmain : extract_output_text response = some (trimList text) := by
    unfold extract_output_text extractStage1
    rw [h1]
    simp [h2]
  refine ⟨hmain, ?_⟩
  rw [hmain]
  intro hc
  exact h4 (by simpa using hc.symm)

/-- Concrete payload used to instantiate Claim C4: top-level
`output_text` "top" and a nested `output`/`content` list holding "nested". -/
def payloadBoth : Json := Json.obj
  [("output_text", Json.str (("top").data)),
   ("output", Json.arr [Json.obj
     [("content", Json.arr [Json.obj [("text", Json.str (("nested").data))]])]])]

/-- Witness for Claim C4 at `payloadBoth`. -/
theorem extract_output_text_priority_witness :
    extract_output_text payloadBoth = some (trimList (("top").data))
      ∧ extract_output_text payloadBoth ≠ some (("nested").data) :=
  extract_output_text_priority payloadBoth (("top").data)
    [Json.obj [("content", Json.arr [Json.obj [("text", Json.str (("nested").data))]])]]
    (("nested").data) (by rfl) (by decide) (by rfl) (by decide)

/-- Claim C5: `next_poll_delay` maps 0 to the 500 ms starting value and
any non-zero delay `d` to `min` of `d` times 1.5 (in integer
milliseconds, `3 * d / 2`) and the 5000 ms cap; iterating from 0 yields
500, 750, 1125, 1687, ..., and the result never exceeds 5000. -/
theorem next_poll_delay_spec :
    next_poll_delay 0 = 500
    ∧ (∀ d, d ≠ 0 → next_poll_delay d = min (3 * d / 2) 5000)
    ∧ (∀ d, next_poll_delay d ≤ 5000)
    ∧ next_poll_delay 500 = 750 ∧ next_poll_delay 750 = 1125
    ∧ next_poll_delay 1125 = 1687 ∧ next_poll_delay 5000 = 5000 := by
  refine ⟨by decide, ?_, ?_, by decide, by decide, by decide, by decide⟩
  · intro d hd
    have h32 : d + d / 2 = 3 * d / 2 := by omega
    simp only [next_poll_delay, if_neg hd, h32]
  · intro d
    unfold next_poll_delay
    exact min_le_right _ _

/-- Witness for Claim C5 at delay 1125. -/
theorem next_poll_delay_spec_witness :
    next_poll_delay 1125 = min (3 * 1125 / 2) 5000 :=
  next_poll_delay_spec.2.1 1125 (by decide)

lemma should_poll_status_cases {s : Str} (h : should_poll_status s = true) :
    s = ("queued").data ∨ s = ("in_progress").data ∨ s = ("cancelling").data := by
  unfold should_poll_status at h
  simp at h
  tauto

lemma pollable_not_terminal {s : Str} (h : should_poll_status s = true) :
    ¬(s = ("completed").data ∨ s = ("incomplete").data)
    ∧ s ≠ ("failed").data ∧ s ≠ ("requires_action").data ∧ s ≠ ("cancelled").data := by
  rcases should_poll_status_cases h with hs | hs | hs <;> subst hs <;>
    refine ⟨?_, ?_, ?_, ?_⟩ <;> decide

/-- Claim C6: in the polling loop, a pollable (non-terminal) status with
the cumulative waited time at or past the 120 s (120000 ms) deadline
fails with `PollTimeout` carrying the last payload; once the deadline is
reached no further fetch or wait ever happens (the result no longer
depends on the remaining fetches); and below the deadline a pollable
status waits exactly the current delay, adding it to the cumulative
total before re-fetching, so all waiting happens strictly before the
deadline. -/
theorem pollLoop_deadline (p : Json) (fetches : List Json) (delay elapsed : Nat) :
    (should_poll_status (statusD p) = true → 120000 ≤ elapsed →
      pollLoop p fetches delay elapsed = .pollTimeout p)
    ∧ (120000 ≤ elapsed →
      pollLoop p fetches delay elapsed = pollLoop p [] delay elapsed)
    ∧ (should_poll_status (statusD p) = true → elapsed < 120000 →
      ∀ next rest, fetches = next :: rest →
        pollLoop p fetches delay elapsed
          = pollLoop next rest (next_poll_delay delay) (elapsed + delay)) := by
  refine ⟨?_, ?_, ?_⟩
  · intro hsp he
    obtain ⟨h1, h2, h3, h4⟩ := pollable_not_terminal hsp
    conv_lhs => rw [pollLoop.eq_def]
    rw [if_neg h1, if_neg h2, if_neg h3, if_neg h4, if_pos hsp, if_pos he]
  · intro he
    conv_lhs => rw [pollLoop.eq_def]
    conv_rhs => rw [pollLoop.eq_def]
    split_ifs <;> first | rfl | omega
  · intro hsp he next rest hf
    subst hf
    obtain ⟨h1, h2, h3, h4⟩ := pollable_not_terminal hsp
    conv_lhs => rw [pollLoop.eq_def]
    rw [if_neg h1, if_neg h2, if_neg h3, if_neg h4, if_pos hsp,
      if_neg (by omega : ¬120000 ≤ elapsed)]

/-- Concrete non-terminal payload used to instantiate Claim C6. -/
def payloadQueued : Json := Json.obj
  [("id", Json.str (("resp_1").data)), ("status", Json.str (("queued").data))]

/-- Witness for Claim C6: at the deadline, the loop times out on
`payloadQueued` whatever fetches remain. -/
theorem pollLoop_deadline_witness :
    pollLoop payloadQueued [payloadQueued] 500 120000 = .pollTimeout payloadQueued
      ∧ pollLoop payloadQueued [payloadQueued] 5000 123456
          = pollLoop payloadQueued [] 5000 123456 :=
  ⟨(pollLoop_deadline payloadQueued [payloadQueued] 500 120000).1 (by rfl) (by omega),
   (pollLoop_deadline payloadQueued [payloadQueued] 5000 123456).2.1 (by omega)⟩

lemma budgetTrace_8192 (l : List Json) (a : Nat) :
    budgetTrace l 8192 a = [] ∨ budgetTrace l 8192 a = [8192] := by
  cases l with
  | nil => exact Or.inl rfl
  | cons r t =>
    right
    have hnr : ¬ retryCond r 8192 a := fun h => absurd h.2.2.2.1 (by omega)
    simp only [budgetTrace, if_neg hnr]

lemma budgetTrace_4096 (l : List Json) (a : Nat) :
    budgetTrace l 4096 a = [] ∨ budgetTrace l 4096 a = [4096]
      ∨ budgetTrace l 4096 a = [4096, 8192] := by
  cases l with
  | nil => exact Or.inl rfl
  | cons r t =>
    by_cases hc : retryCond r 4096 a
    · have hmin : min (4096 * 2) 8192 = 8192 := by norm_num
      rcases budgetTrace_8192 t (a + 1) with h | h
      · right; left
        simp only [budgetTrace, if_pos hc, hmin, h]
      · right; right
        simp only [budgetTrace, if_pos hc, hmin, h]
    · right; left
      simp only [budgetTrace, if_neg hc]

lemma budgetTrace_2048 (l : List Json) :
    budgetTrace l 2048 0 = [] ∨ budgetTrace l 2048 0 = [2048]
      ∨ budgetTrace l 2048 0 = [2048, 4096]
      ∨ budgetTrace l 2048 0 = [2048, 4096, 8192] := by
  cases l with
  | nil => exact Or.inl rfl
  | cons r t =>
    by_cases hc : retryCond r 2048 0
    · have hmin : min (2048 * 2) 8192 = 4096 := by norm_num
      rcases budgetTrace_4096 t 1 with h | h | h
      · right; left
        simp only [budgetTrace, if_pos hc, hmin, h]
      · right; right; left
        simp only [budgetTrace, if_pos hc, hmin, h]
      · right; right; right
        simp only [budgetTrace, if_pos hc, hmin, h]
    · right; left
      simp only [budgetTrace, if_neg hc]

/-- Claim C2: the retry loop resubmits exactly when no text was
extracted, the terminal status is `incomplete` with reason exactly
"max_output_tokens", the budget is below 8192 and the attempt count is
below 3 (otherwise the result is already determined by the current
payload and the remaining responses are never consulted); on
resubmission the budget doubles capped at 8192; and every run from
budget 2048 makes at most three submissions, whose budgets are among
2048, 4096, 8192. -/
theorem callLoop_retry_policy :
    (∀ (resp : Json) (rest : List Json) (budget attemptsPrev : Nat),
      (¬ retryCond resp budget attemptsPrev →
        callLoop (resp :: rest) budget attemptsPrev
          = callLoop [resp] budget attemptsPrev)
      ∧ (retryCond resp budget attemptsPrev →
        callLoop (resp :: rest) budget attemptsPrev
          = callLoop rest (min (budget * 2) 8192) (attemptsPrev + 1)))
    ∧ (∀ responses, (budgetTrace responses 2048 0).length ≤ 3
        ∧ ∀ b ∈ budgetTrace responses 2048 0, b = 2048 ∨ b = 4096 ∨ b = 8192) := by
  constructor
  · intro resp rest budget attemptsPrev
    constructor
    · intro hnr
      simp only [callLoop]
      cases hx : extract_output_text resp with
      | some answer => rfl
      | none =>
        have hC : ¬(statusD resp = ("incomplete").data
            ∧ incomplete_reason resp = some (("max_output_tokens").data)
            ∧ budget < 8192 ∧ attemptsPrev + 1 < 3) := fun hc => hnr ⟨hx, hc⟩
        simp only [if_neg hC]
    · intro hr
      obtain ⟨hx, hrest⟩ := hr
      simp only [callLoop, hx]
      rw [if_pos hrest]
  · intro responses
    rcases budgetTrace_2048 responses with h | h | h | h <;> rw [h] <;>
      exact ⟨by decide, by decide⟩

/-- Concrete `incomplete`/`max_output_tokens` payload with no text, used
to instantiate Claim C2. -/
def payloadIncompleteNoText : Json := Json.obj
  [("status", Json.str (("incomplete").data)),
   ("incomplete_details", Json.obj [("reason", Json.str (("max_output_tokens").data))])]

/-- Witness for Claim C2: on `payloadIncompleteNoText` the loop
resubmits with the doubled budget, and a run of three such payloads uses
at most three submissions. -/
theorem callLoop_retry_policy_witness :
    callLoop [payloadIncompleteNoText] 2048 0 = callLoop [] (min (2048 * 2) 8192) (0 + 1)
      ∧ (budgetTrace [payloadIncompleteNoText, payloadIncompleteNoText,
          payloadIncompleteNoText] 2048 0).length ≤ 3 :=
  ⟨(callLoop_retry_policy.1 payloadIncompleteNoText [] 2048 0).2 (by decide),
   (callLoop_retry_policy.2 [payloadIncompleteNoText, payloadIncompleteNoText,
      payloadIncompleteNoText]).1⟩

/-- Claim C8: when the terminal payload yields text, an `incomplete`
status makes `call_openai` return the text with the fixed warning (which
names the truncation reason, or "reason unavailable" when the payload
carries none) appended; any other status returns the text unmodified. -/
theorem callLoop_incomplete_warning (resp : Json) (rest : List Json)
    (budget attemptsPrev : Nat) (t : Str)
    (hx : extract_output_text resp = some t) :
    (statusD resp = ("incomplete").data →
      callLoop (resp :: rest) budget attemptsPrev
        = .answer (t ++ warningText (incomplete_reason resp)))
    ∧ (statusD resp ≠ ("incomplete").data →
      callLoop (resp :: rest) budget attemptsPrev = .answer t) := by
  constructor
  · intro hs
    simp only [callLoop, hx]
    rw [if_pos hs]
  · intro hs
    simp only [callLoop, hx]
    rw [if_neg hs]

/-- Concrete `incomplete` payload with text "partial" and reason
"content_filter" (Scenario D), used to instantiate Claim C8. -/
def payloadScenarioD : Json := Json.obj
  [("status", Json.str (("incomplete").data)),
   ("output_text", Json.str (("partial").data)),
   ("incomplete_details", Json.obj [("reason", Json.str (("content_filter").data))])]

/-- Witness for Claim C8 at `payloadScenarioD`: the answer is "partial"
followed by a blank line and the oracle warning naming content_filter. -/
theorem callLoop_incomplete_warning_witness :
    callLoop [payloadScenarioD] 2048 0 = .answer
      (("partial\n\n[oracle warning] OpenAI stopped early (content_filter). The answer may be truncated.").data) := by
  have h := (callLoop_incomplete_warning payloadScenarioD [] 2048 0 (("partial").data)
    (by rfl)).1 (by rfl)
  rw [h]
  rfl

/-- The string `needle` occurs as a contiguous segment of `haystack`. -/
def occursIn (needle haystack : Str) : Prop :=
  ∃ pre post, haystack = pre ++ needle ++ post

lemma occursIn_self (s : Str) : occursIn s s := ⟨[], [], by simp⟩

lemma occursIn_append_left {n a : Str} (b : Str) (h : occursIn n a) :
    occursIn n (a ++ b) := by
  obtain ⟨p, q, rfl⟩ := h
  exact ⟨p, q ++ b, by simp⟩

lemma occursIn_append_right (a : Str) {n b : Str} (h : occursIn n b) :
    occursIn n (a ++ b) := by
  obtain ⟨p, q, rfl⟩ := h
  exact ⟨a ++ p, q, by simp⟩

lemma occursIn_foldl_acc {n acc : Str} (l : List Str) (h : occursIn n acc) :
    occursIn n (l.foldl (fun acc path => acc ++ ("- ").data ++ path ++ ("\n").data) acc) := by
  induction l generalizing acc with
  | nil => exact h
  | cons x xs ih =>
    exact ih (occursIn_append_left _ (occursIn_append_left _ (occursIn_append_left _ h)))

lemma occursIn_foldl_mem {p : Str} (l : List Str) (acc : Str) (hp : p ∈ l) :
    occursIn p (l.foldl (fun acc path => acc ++ ("- ").data ++ path ++ ("\n").data) acc) := by
  induction l generalizing acc with
  | nil => simp at hp
  | cons x xs ih =>
    rcases List.mem_cons.mp hp with rfl | hx
    · exact occursIn_foldl_acc xs
        (occursIn_append_left _ (occursIn_append_right _ (occursIn_self p)))
    · exact ih _ hx

/-- Claim C9: with the test-mode flag enabled, `call_openai` returns the
locally built test-mode response whatever the credential and whatever
the remote would have answered (no remote call, no retry, no credential
check), and that response contains the test-mode marker, the problem
verbatim, the extra context verbatim (or "(not provided)" when absent or
blank), and each provided file path (or "(none)" when none are
provided). -/
theorem test_mode_spec (apiKey : Option Str) (responses : List Json)
    (req : OracleRequest) :
    call_openai true apiKey req responses = .answer (test_mode_response req)
    ∧ occursIn (("[oracle test mode]").data) (test_mode_response req)
    ∧ occursIn req.problem (test_mode_response req)
    ∧ (∀ extra, req.extra_context = some extra → trimList extra ≠ [] →
        occursIn extra (test_mode_response req))
    ∧ (∀ extra, req.extra_context = some extra → trimList extra = [] →
        occursIn (("(not provided)").data) (test_mode_response req))
    ∧ (req.extra_context = none →
        occursIn (("(not provided)").data) (test_mode_response req))
    ∧ (∀ files p, req.files = some files → p ∈ files →
        occursIn p (test_mode_response req))
    ∧ (req.files = none → occursIn (("(none)").data) (test_mode_response req))
    ∧ (req.files = some [] → occursIn (("(none)").data) (test_mode_response req)) := by
  refine ⟨rfl, ?_, ?_, ?_, ?_, ?_, ?_, ?_, ?_⟩
  · unfold test_mode_response
    refine occursIn_append_left _ (occursIn_append_left _ (occursIn_append_left _
      (occursIn_append_left _ (occursIn_append_left _ (occursIn_append_left _ ?_)))))
    exact ⟨[], (" No call was made to OpenAI because ORACLE_TEST_MODE is set.\n\n").data, rfl⟩
  · unfold test_mode_response
    refine occursIn_append_left _ (occursIn_append_left _ (occursIn_append_left _
      (occursIn_append_left _ ?_)))
    exact occursIn_append_right _ (occursIn_self _)
  · intro extra hext htrim
    simp only [test_mode_response, hext]
    rw [if_pos htrim]
    refine occursIn_append_left _ (occursIn_append_left _ ?_)
    exact occursIn_append_right _ (occursIn_append_left _
      (occursIn_append_right _ (occursIn_self _)))
  · intro extra hext htrim
    simp only [test_mode_response, hext]
    rw [if_neg (fun hne => hne htrim)]
    refine occursIn_append_left _ (occursIn_append_left _ ?_)
    exact occursIn_append_right _
      ⟨("Extra context: ").data, ("\n\n").data, rfl⟩
  · intro hext
    simp only [test_mode_response, hext]
    refine occursIn_append_left _ (occursIn_append_left _ ?_)
    exact occursIn_append_right _
      ⟨("Extra context: ").data, ("\n\n").data, rfl⟩
  · intro files p hfiles hp
    simp only [test_mode_response, hfiles]
    rw [if_pos (show files ≠ [] by rintro rfl; simp at hp)]
    exact occursIn_append_right _ (occursIn_foldl_mem files [] hp)
  · intro hfiles
    simp only [test_mode_response, hfiles]
    exact occursIn_append_right _ ⟨[], ("\n").data, rfl⟩
  · intro hfiles
    simp only [test_mode_response, hfiles]
    rw [if_neg (by simp)]
    exact occursIn_append_right _ ⟨[], ("\n").data, rfl⟩

/-- Witness for Claim C9 at Scenario A: test mode, problem "fix bug",
no files, no extra context. -/
theorem test_mode_spec_witness :
    call_openai true none ⟨("fix bug").data, none, none⟩ []
        = .answer (test_mode_response ⟨("fix bug").data, none, none⟩)
      ∧ occursIn (("[oracle test mode]").data)
          (test_mode_response ⟨("fix bug").data, none, none⟩)
      ∧ occursIn (("fix bug").data) (test_mode_response ⟨("fix bug").data, none, none⟩)
      ∧ occursIn (("(none)").data) (test_mode_response ⟨("fix bug").data, none, none⟩) :=
  ⟨(test_mode_spec none [] ⟨("fix bug").data, none, none⟩).1,
   (test_mode_spec none [] ⟨("fix bug").data, none, none⟩).2.1,
   (test_mode_spec none [] ⟨("fix bug").data, none, none⟩).2.2.1,
   (test_mode_spec none [] ⟨("fix bug").data, none, none⟩).2.2.2.2.2.2.2.1 rfl⟩

/-- Claim C1 (amended): whenever the non-file sections of the prompt
(fixed text, problem, extra context, plus the project-files header and
truncation notice) fit within `MAX_PROMPT_CHARS`, any prompt
`build_prompt` returns is at most `MAX_PROMPT_CHARS` bytes long. -/
theorem build_prompt_bounded (problem : Bytes) (extra_context : Option Bytes)
    (files : Option (List FileBlock)) (p : Bytes)
    (hp : build_prompt problem extra_context files = some p)
    (hbase : baseLen problem extra_context ≤ MAX_PROMPT_CHARS) :
    p.length ≤ MAX_PROMPT_CHARS := by
  have hH : projectFilesHeader.length = 18 := by decide
  have hT : truncNotice.length = 79 := by decide
  have hbl : baseLen problem extra_context
      = (userPromptBase problem extra_context).length + 18 + 79 := by
    unfold baseLen
    rw [hH, hT]
  simp only [build_prompt] at hp
  split at hp
  · cases hp
    omega
  · split at hp
    · cases hp
      simp only [List.length_append]
      omega
    · split at hp
      · rename_i hlt
        split at hp
        · rename_i truncated heq
          cases hp
          unfold rustTruncate at heq
          rw [if_neg (by omega)] at heq
          split at heq
          · cases heq
            simp only [List.length_append, List.length_take]
            omega
          · cases heq
        · cases hp
      · rename_i hge
        cases hp
        simp only [List.length_append]
        omega

/-- Small file block used to instantiate the amended Claim C1. -/
def smallBlock : FileBlock := FileBlock.mk (ascii ("f")) (FileRead.ok (ascii ("x")))

/-- Witness for the amended Claim C1 at a small request. -/
theorem build_prompt_bounded_witness :
    (userPromptBase (ascii ("hi")) none ++ projectFilesHeader
      ++ contextBlocksOf (some [smallBlock])).length ≤ MAX_PROMPT_CHARS :=
  build_prompt_bounded (ascii ("hi")) none (some [smallBlock])
    (userPromptBase (ascii ("hi")) none ++ projectFilesHeader
      ++ contextBlocksOf (some [smallBlock]))
    (by rfl) (by decide)

/-- Problem text of one million "a" bytes, used to refute Claim C1 as
originally stated. -/
def bigProblem : Bytes := List.replicate 1000000 97

/-- Unfolding of `build_prompt` on the million-byte problem with no
files: the file-context buffer is empty, so the prompt is just the base
sections. -/
theorem build_prompt_big_eq : build_prompt bigProblem none none
    = some (userPromptBase bigProblem none) := by
  simp only [build_prompt]
  rw [if_pos (show contextBlocksOf none = [] from rfl)]

/-- Counterexample to Claim C1 as stated: with a 1,000,000-byte problem
and no files, `build_prompt` returns a prompt strictly longer than
`MAX_PROMPT_CHARS` (the problem and extra-context sections are never
truncated; only file context is). -/
theorem build_prompt_over_bound :
    MAX_PROMPT_CHARS < ((build_prompt bigProblem none none).getD []).length := by
  rw [build_prompt_big_eq, show ∀ (x : Bytes), (some x).getD ([] : Bytes) = x from fun x => rfl]
  have h1 : promptIntro.length = 358 := by decide
  have h2 : (ascii ("### Coding problem\n")).length = 19 := by decide
  have h3x : (ascii ("\n\n")).length = 2 := by decide
  have h4 : bigProblem.length = 1000000 := by
    rw [show bigProblem = List.replicate 1000000 97 from rfl, List.length_replicate]
  have hm : (match (none : Option Bytes) with
      | some extra => ascii ("### Extra context\n") ++ extra ++ ascii ("\n\n")
      | none => ([] : Bytes)) = [] := rfl
  unfold userPromptBase
  rw [hm, List.length_append, List.length_append, List.length_append, List.length_append,
    h1, h2, h3x, h4, List.length_nil]
  norm_num [MAX_PROMPT_CHARS]

/-- File block whose path is the two UTF-8 bytes of "é", used for
Claim C3. -/
def fileBlockC3 : FileBlock := FileBlock.mk [195, 169] (FileRead.ok (ascii ("hello")))

/-- Problem text sized so that exactly 15 bytes remain for file context,
landing the cut inside the two-byte character of `fileBlockC3`. -/
def problemC3 : Bytes := List.replicate 999509 97

/-- Length of the base prompt with no extra context, at the level of
its components. -/
lemma userPromptBase_none_len (problem : Bytes) :
    (userPromptBase problem none).length
      = promptIntro.length + (ascii ("### Coding problem\n")).length
        + problem.length + (ascii ("\n\n")).length := by
  unfold userPromptBase
  rw [show (match (none : Option Bytes) with
      | some extra => ascii ("### Extra context\n") ++ extra ++ ascii ("\n\n")
      | none => ([] : Bytes)) = ([] : Bytes) from rfl]
  rw [List.length_append, List.length_append, List.length_append, List.length_append,
    List.length_nil]
  omega

/-- Unfolding equation for `baseLen`, stated at variables. -/
lemma baseLen_eq (problem : Bytes) (extra_context : Option Bytes) :
    baseLen problem extra_context = (userPromptBase problem extra_context).length
      + projectFilesHeader.length + truncNotice.length := rfl

/-- Claim C3 failing input: on `problemC3` with `fileBlockC3`,
`available_for_files` is 15, which falls on the continuation byte of the
multi-byte character in the file-context buffer, so `String::truncate`
panics: `build_prompt` aborts (`none`) instead of returning a prompt. -/
theorem build_prompt_panics :
    build_prompt problemC3 none (some [fileBlockC3]) = none := by
  have h1 : promptIntro.length = 358 := by decide
  have h2 : (ascii ("### Coding problem\n")).length = 19 := by decide
  have h3x : (ascii ("\n\n")).length = 2 := by decide
  have h4 : problemC3.length = 999509 := by
    rw [show problemC3 = List.replicate 999509 97 from rfl, List.length_replicate]
  have hH : projectFilesHeader.length = 18 := by decide
  have hT : truncNotice.length = 79 := by decide
  have hav : MAX_PROMPT_CHARS - baseLen problemC3 none = 15 := by
    rw [baseLen_eq, userPromptBase_none_len, h1, h2, h3x, h4, hH, hT]
    norm_num [MAX_PROMPT_CHARS]
  have hcbl : (contextBlocksOf (some [fileBlockC3])).length = 29 := by decide
  have htr : rustTruncate (contextBlocksOf (some [fileBlockC3])) 15 = none := by decide
  simp only [build_prompt]
  rw [if_neg (show ¬ contextBlocksOf (some [fileBlockC3]) = [] by decide)]
  rw [hav, if_neg (by norm_num : ¬(15 = 0)), hcbl, if_pos (by norm_num : (15 : Nat) < 29),
    htr]

/-- Claim C7 (amended): the preview is the whole serialized form when it
is at most 2000 bytes; when it is longer and byte offset 2000 falls on a
character boundary (any ASCII serialization in particular), the preview
is exactly the first 2000 bytes followed by the "...[truncated N chars]"
suffix naming the omitted byte count. -/
theorem summarize_json_preview (json_str : Bytes) :
    (json_str.length ≤ 2000 → summarize_json json_str = some json_str)
    ∧ (2000 < json_str.length → isUtf8CharBoundary json_str 2000 = true →
        summarize_json json_str
          = some (json_str.take 2000 ++ ascii ("...[truncated ")
              ++ ascii (Nat.repr (json_str.length - 2000)) ++ ascii (" chars]"))) := by
  constructor
  · intro hle
    simp only [summarize_json, OPENAI_JSON_PREVIEW_CHARS]
    rw [if_pos hle]
  · intro hgt hb
    simp only [summarize_json, OPENAI_JSON_PREVIEW_CHARS]
    rw [if_neg (by omega), if_pos hb]

/-- Witness for the amended Claim C7 at the two-byte serialization of an
empty object. -/
theorem summarize_json_preview_witness :
    summarize_json (ascii ("\x7b\x7d")) = some (ascii ("\x7b\x7d")) :=
  (summarize_json_preview (ascii ("\x7b\x7d"))).1 (by decide)

/-- Serialization (2002 bytes) of the JSON string of 1998 "a"s followed
by "é": a quote byte, 1998 "a" bytes, the two bytes 195 169 of "é", and
a closing quote. Byte offset 2000 falls on the continuation byte 169. -/
def badJson : Bytes := [34] ++ List.replicate 1998 97 ++ [195, 169, 34]

/-- Unfolding equation for `summarize_json`, stated at variables. -/
lemma summarize_json_eq (json_str : Bytes) :
    summarize_json json_str
      = if json_str.length ≤ OPENAI_JSON_PREVIEW_CHARS then some json_str
        else if isUtf8CharBoundary json_str OPENAI_JSON_PREVIEW_CHARS then
          some (json_str.take OPENAI_JSON_PREVIEW_CHARS
            ++ ascii ("...[truncated ")
            ++ ascii (Nat.repr (json_str.length - OPENAI_JSON_PREVIEW_CHARS))
            ++ ascii (" chars]"))
        else none := rfl

/-- Length of `badJson`. -/
lemma badJson_len : badJson.length = 2002 := by
  rw [show badJson = [34] ++ List.replicate 1998 97 ++ [195, 169, 34] from rfl]
  simp only [List.length_append, List.length_replicate, List.length_cons,
    List.length_nil]

/-- Byte 2000 of `badJson` is the continuation byte 169. -/
lemma badJson_get : badJson.get? 2000 = some 169 := by
  rw [show badJson = [34] ++ List.replicate 1998 97 ++ [195, 169, 34] from rfl]
  rw [List.get?_eq_getElem?]
  rw [List.getElem?_append_right (by
    simp only [List.length_append, List.length_replicate, List.length_cons,
      List.length_nil]
    omega)]
  simp only [List.length_append, List.length_replicate, List.length_cons,
    List.length_nil]
  norm_num

/-- Offset 2000 is not a character boundary of `badJson`. -/
lemma badJson_not_boundary : isUtf8CharBoundary badJson 2000 = false := by
  unfold isUtf8CharBoundary
  rw [if_neg (by norm_num), badJson_get]
  decide

/-- Counterexample to Claim C7 as stated: on `badJson` the byte slice
of the first 2000 bytes falls inside a multi-byte character, so
`summarize_json` panics (`none`) instead of producing a preview. -/
theorem summarize_json_panics : summarize_json badJson = none := by
  rw [summarize_json_eq]
  rw [show OPENAI_JSON_PREVIEW_CHARS = 2000 from rfl]
  rw [if_neg (show ¬ badJson.length ≤ 2000 by rw [badJson_len]; omega)]
  rw [if_neg (show ¬ isUtf8CharBoundary badJson 2000 = true by
    rw [badJson_not_boundary]; exact Bool.false_ne_true)]
